import Mathlib

/-!
Verification of `src/decrypt.py` (suprsafe).

The module under verification is `decrypt.py`, whose entry point
`decrypt_files_in_directory(directory)` brackets a password-gated batch
decryption with a recovery marker.  We embed the function as an executable
interpreter producing the ordered trace of externally visible effects
(an `Event` list) together with the process outcome, over an environment
`Env` that fixes the results of the out-of-scope collaborators
(`get_stored_password_hash`, `check_password`, `decrypt_aes_key_and_iv`,
the file system, ...).

Bytes are modelled as `List Nat`, Python `str` file names as `List Char`.
-/

/-- Python sequence index normalisation for a slice bound: a negative
index counts from the end and clamps at `0`; a non-negative index clamps
at `len`.  This is the semantics of `data[i:j]` bounds in CPython. -/
def pyIdx (len : Nat) (i : Int) : Nat :=
  if i < 0 then ((len : Int) + i).toNat else min i.toNat len

/-- Python `l[:stop]`. -/
def pySliceTo (l : List Nat) (stop : Int) : List Nat :=
  l.take (pyIdx l.length stop)

/-- Python `l[start:]`. -/
def pySliceFrom (l : List Nat) (start : Int) : List Nat :=
  l.drop (pyIdx l.length start)

/-- Python `l[start:stop]`. -/
def pySlice (l : List Nat) (start stop : Int) : List Nat :=
  (l.take (pyIdx l.length stop)).drop (pyIdx l.length start)

/-- `decrypt.py` lines 88-92: after reading `encrypted_keys_ivs.bin` into
`data`, the function computes `ciphertext = data[:-32]`,
`tag = data[-32:-16]`, `nonce = data[-16:]`. -/
def parseBlob (data : List Nat) : List Nat × List Nat × List Nat :=
  (pySliceTo data (-32), pySlice data (-32) (-16), pySliceFrom data (-16))

/-- `decrypt.py` lines 49-59, `decrypt_file(file_path, aes_key, iv, tag,
nonce)`: reads the ciphertext from `file_path` (abstracted to the
parameter `fileContent`), builds
`Cipher(algorithms.AES(aes_key), modes.GCM(nonce, tag))`, and returns
`update(ciphertext) + finalize()`, or `None` if the cipher raises.  The
AES-GCM primitive of the `cryptography` library is abstracted as the
parameter `gcm key nonce tag ciphertext : Option bytes` (`none` models
the caught exception path).  Note the body never references `iv`. -/
def decrypt_file (gcm : List Nat → List Nat → List Nat → List Nat → Option (List Nat))
    (fileContent aes_key : List Nat) (iv : List Nat) (tag nonce : List Nat) :
    Option (List Nat) :=
  gcm aes_key nonce tag fileContent

/-- Reason a file is skipped in the batch loop. -/
inductive SkipReason where
  | missingSidecar
  | decryptFailed
  deriving DecidableEq, Repr

/-- Externally visible effects of `decrypt_files_in_directory`, in program
order.  File paths are directory-relative names (`List Char`). -/
inductive Event where
  | createMarker
  | installSigint
  | loadSettings
  | deferToSetup
  | promptPassword
  | exceptionRaised
  | readKeysBlob
  | promptMainKey
  | unwrapDekIv
  | skipFile (name : List Char) (reason : SkipReason)
  | writePlaintext (path : List Char)
  | secureDeleteFile (path : List Char)
  | eraseError (name : List Char)
  | logInvalidPassword (remaining : Nat)
  | wipeFiles
  | exitProcess (code : Nat)
  | logError
  | messageWindow
  | cleanupMarker
  deriving DecidableEq, Repr

/-- How control leaves the `while attempts < 3` password loop. -/
inductive LoopExit where
  | returned
  | sysExit1
  | raised
  deriving DecidableEq, Repr

/-- Final fate of the call: `normal` = the function returns (process goes
on to exit 0), `exit1` = `sys.exit(1)` propagates (process exit status 1),
`propagated` = an exception escapes the function.  The interpreter is
shown never to produce `propagated`. -/
inductive Outcome where
  | normal
  | exit1
  | propagated
  deriving DecidableEq, Repr

/-- One entry of `os.listdir(directory)` together with the environment's
answers for the collaborator calls made while processing it:
`tagExists`/`nonceExists` are the two `os.path.exists` checks,
`decryptOk` is whether `decrypt_file` returns data (vs `None`), and
`eraseFail = some k` means the `k`-th of the three `secure_delete` calls
(file, tag, nonce, in that order) raises. -/
structure FileEntry where
  name : List Char
  isDir : Bool
  tagExists : Bool
  nonceExists : Bool
  decryptOk : Bool
  eraseFail : Option (Fin 3)
  deriving DecidableEq, Repr

/-- Environment fixing every collaborator result an invocation of
`decrypt_files_in_directory` can observe: whether
`get_stored_password_hash()` is non-`None`, whether each successive
`getpass` submission passes `check_password` (`getD _ false`: beyond the
list, wrong), the `wipe_files_after_max_attempts` setting, whether
`encrypted_keys_ivs.bin` exists (line 88's `open` raises otherwise),
its raw bytes, whether `decrypt_aes_key_and_iv` returns a key (vs
`None`), and the directory listing. -/
structure Env where
  hasStoredHash : Bool
  submissions : List Bool
  wipeSetting : Bool
  keysFileExists : Bool
  blob : List Nat
  unwrapOk : Bool
  files : List FileEntry
  deriving Repr

def encExt : List Char := ['.', 'e', 'n', 'c']

def tagSuffix : List Char := ['.', 'e', 'n', 'c', '.', 't', 'a', 'g']

def nonceSuffix : List Char := ['.', 'e', 'n', 'c', '.', 'n', 'o', 'n', 'c', 'e']

/-- Python `filename.endswith(".enc")`. -/
def endsWithEnc (n : List Char) : Bool :=
  decide (4 ≤ n.length) && (n.drop (n.length - 4) == encExt)

/-- Python `file_path[:-4]` (lines 115-118; only applied when the name
ends in `".enc"`, in which case it strips that extension). -/
def stripEnc (n : List Char) : List Char :=
  n.take (n.length - 4)

/-- The three arguments of the `secure_delete` calls at lines 152-154:
the ciphertext file, then `base + ".enc.tag"`, then `base + ".enc.nonce"`. -/
def deleteTargets (e : FileEntry) : List (List Char) :=
  [e.name, stripEnc e.name ++ tagSuffix, stripEnc e.name ++ nonceSuffix]

/-- Lines 150-156: the three `secure_delete` calls inside
`try/except Exception`; if call `k` raises, the earlier deletions have
happened, the error is printed (`eraseError`), and the loop continues. -/
def eraseEvents (e : FileEntry) : List Event :=
  match e.eraseFail with
  | none => (deleteTargets e).map Event.secureDeleteFile
  | some k => ((deleteTargets e).map Event.secureDeleteFile).take k.val ++ [Event.eraseError e.name]

/-- Lines 106-156, the body of `for filename in os.listdir(directory)`
for one entry: skip directories and non-`.enc` names; skip (with a
message) when a sidecar is missing; skip when `decrypt_file` returns
`None`; otherwise write the plaintext to the base path and then securely
delete the three source artifacts. -/
def processFile (e : FileEntry) : List Event :=
  if e.isDir || !endsWithEnc e.name then []
  else if !e.tagExists || !e.nonceExists then [Event.skipFile e.name SkipReason.missingSidecar]
  else if e.decryptOk = false then [Event.skipFile e.name SkipReason.decryptFailed]
  else Event.writePlaintext (stripEnc e.name) :: eraseEvents e

/-- The whole `for` loop over the directory listing, in order. -/
def fileLoop : List FileEntry → List Event
  | [] => []
  | e :: fs => processFile e ++ fileLoop fs

/-- One iteration of `while attempts < 3` (lines 80-180) at counter value
`attempts`, where `next` is the behaviour of the remaining loop.
Correct password (line 83): derive the key, open the keys blob (raising
`FileNotFoundError` if absent — line 88 is outside the inner
`try/except FileNotFoundError`, so this lands in the top-level handler),
parse it, `prompt_for_main_key`, `decrypt_aes_key_and_iv`; on `None`
return, else run the file loop, show the message window and return.
Wrong password: increment; with attempts remaining print the count and
loop, otherwise wipe if configured and `sys.exit(1)`. -/
def attemptStep (env : Env) (attempts : Nat) (next : List Event × LoopExit) :
    List Event × LoopExit :=
  if env.submissions.getD attempts false then
    if env.keysFileExists = false then
      ([Event.promptPassword, Event.exceptionRaised], LoopExit.raised)
    else if env.unwrapOk = false then
      ([Event.promptPassword, Event.readKeysBlob, Event.promptMainKey, Event.unwrapDekIv],
        LoopExit.returned)
    else
      (Event.promptPassword :: Event.readKeysBlob :: Event.promptMainKey :: Event.unwrapDekIv ::
        (fileLoop env.files ++ [Event.messageWindow]), LoopExit.returned)
  else if attempts + 1 < 3 then
    (Event.promptPassword :: Event.logInvalidPassword (3 - (attempts + 1)) :: next.1, next.2)
  else
    (Event.promptPassword ::
        ((if env.wipeSetting then [Event.wipeFiles] else []) ++ [Event.exitProcess 1]),
      LoopExit.sysExit1)

/-- The password loop, unrolled over its at most three iterations
(`attempts` = 0, 1, 2); the innermost continuation is the dead code after
the loop (lines 183-184: print and `sys.exit(1)`), reachable only if all
three iterations fell through without exiting, which they never do. -/
def pwLoop (env : Env) : List Event × LoopExit :=
  attemptStep env 0 (attemptStep env 1 (attemptStep env 2
    ([Event.exitProcess 1], LoopExit.sysExit1)))

/-- `decrypt_files_in_directory(directory)`, lines 62-191, as a trace
producer.  The `try` body first persists the recovery marker
(`create_temp_state`, line 65), installs the SIGINT handler (line 67),
loads the settings (line 70); a `None` stored hash defers to the setup
flow and returns (lines 73-77); otherwise the password loop runs.  The
`except Exception` handler (lines 186-187) prints the error and falls
through — it does not re-raise — and the `finally` block (lines 188-191)
runs `cleanup_temp_state` on every path (`sys.exit`'s `SystemExit` is not
an `Exception`, so it passes the handler but still runs `finally`). -/
def run (env : Env) : List Event × Outcome :=
  if env.hasStoredHash = false then
    ([Event.createMarker, Event.installSigint, Event.loadSettings, Event.deferToSetup,
        Event.cleanupMarker],
      Outcome.normal)
  else
    match pwLoop env with
    | (evs, LoopExit.returned) =>
      ([Event.createMarker, Event.installSigint, Event.loadSettings] ++ evs ++
          [Event.cleanupMarker],
        Outcome.normal)
    | (evs, LoopExit.sysExit1) =>
      ([Event.createMarker, Event.installSigint, Event.loadSettings] ++ evs ++
          [Event.cleanupMarker],
        Outcome.exit1)
    | (evs, LoopExit.raised) =>
      ([Event.createMarker, Event.installSigint, Event.loadSettings] ++ evs ++
          [Event.logError, Event.cleanupMarker],
        Outcome.normal)

/-- Test for the password-prompt event. -/
def isPrompt : Event → Bool
  | Event.promptPassword => true
  | _ => false

/-- Number of password prompts issued in a trace. -/
def countPrompts (l : List Event) : Nat :=
  l.countP isPrompt

/-- Events that the per-file batch loop can emit. -/
def isFileEvent : Event → Bool
  | Event.skipFile _ _ => true
  | Event.writePlaintext _ => true
  | Event.secureDeleteFile _ => true
  | Event.eraseError _ => true
  | _ => false

lemma mem_eraseEvents_isFileEvent (e : FileEntry) :
    ∀ ev ∈ eraseEvents e, isFileEvent ev = true := by
  intro ev hev
  cases hf : e.eraseFail <;> rw [eraseEvents, hf] at hev
  · rcases List.mem_map.mp hev with ⟨p, _, rfl⟩
    rfl
  · rcases List.mem_append.mp hev with h1 | h1
    · rcases List.mem_map.mp ((List.take_sublist _ _).mem h1) with ⟨p, _, rfl⟩
      rfl
    · rw [List.mem_singleton.mp h1]
      rfl

lemma mem_processFile_isFileEvent (e : FileEntry) :
    ∀ ev ∈ processFile e, isFileEvent ev = true := by
  intro ev hev
  rw [processFile] at hev
  split at hev
  · simp at hev
  · split at hev
    · rw [List.mem_singleton.mp hev]
      rfl
    · split at hev
      · rw [List.mem_singleton.mp hev]
        rfl
      · rcases List.mem_cons.mp hev with rfl | h1
        · rfl
        · exact mem_eraseEvents_isFileEvent e ev h1

lemma mem_fileLoop_isFileEvent (fs : List FileEntry) :
    ∀ ev ∈ fileLoop fs, isFileEvent ev = true := by
  induction fs with
  | nil => intro ev hev; simp [fileLoop] at hev
  | cons e fs ih =>
    intro ev hev
    rcases List.mem_append.mp hev with h1 | h1
    · exact mem_processFile_isFileEvent e ev h1
    · exact ih ev h1

lemma countPrompts_fileLoop (fs : List FileEntry) : countPrompts (fileLoop fs) = 0 := by
  rw [countPrompts, List.countP_eq_zero]
  intro ev hev
  have h := mem_fileLoop_isFileEvent fs ev hev
  cases ev <;> simp_all [isFileEvent, isPrompt]

lemma promptPassword_not_mem_fileLoop (fs : List FileEntry) :
    Event.promptPassword ∉ fileLoop fs := by
  intro h
  exact absurd (mem_fileLoop_isFileEvent fs _ h) (by simp [isFileEvent])

lemma exceptionRaised_not_mem_fileLoop (fs : List FileEntry) :
    Event.exceptionRaised ∉ fileLoop fs := by
  intro h
  exact absurd (mem_fileLoop_isFileEvent fs _ h) (by simp [isFileEvent])

lemma wipeFiles_not_mem_fileLoop (fs : List FileEntry) :
    Event.wipeFiles ∉ fileLoop fs := by
  intro h
  exact absurd (mem_fileLoop_isFileEvent fs _ h) (by simp [isFileEvent])

lemma run_no_hash (env : Env) (h : env.hasStoredHash = false) :
    run env = ([Event.createMarker, Event.installSigint, Event.loadSettings,
      Event.deferToSetup, Event.cleanupMarker], Outcome.normal) := by
  rw [run, h]
  simp

lemma run_returned (env : Env) (h : env.hasStoredHash = true) (evs : List Event)
    (hp : pwLoop env = (evs, LoopExit.returned)) :
    run env = ([Event.createMarker, Event.installSigint, Event.loadSettings] ++ evs ++
      [Event.cleanupMarker], Outcome.normal) := by
  rw [run, h, hp]
  simp

lemma run_sysExit1 (env : Env) (h : env.hasStoredHash = true) (evs : List Event)
    (hp : pwLoop env = (evs, LoopExit.sysExit1)) :
    run env = ([Event.createMarker, Event.installSigint, Event.loadSettings] ++ evs ++
      [Event.cleanupMarker], Outcome.exit1) := by
  rw [run, h, hp]
  simp

lemma run_raised (env : Env) (h : env.hasStoredHash = true) (evs : List Event)
    (hp : pwLoop env = (evs, LoopExit.raised)) :
    run env = ([Event.createMarker, Event.installSigint, Event.loadSettings] ++ evs ++
      [Event.logError, Event.cleanupMarker], Outcome.normal) := by
  rw [run, h, hp]
  simp

/-- Claim C2: the recovery marker is created first, before the SIGINT
handler is installed and before any password prompt; and the trace of
every run, whatever the environment (normal return, raised error, or the
`sys.exit(1)` lockout), ends with the marker removal. -/
theorem C2_marker_lifecycle (env : Env) :
    (∃ rest, (run env).1 = Event.createMarker :: Event.installSigint :: rest) ∧
    (∃ pre, (run env).1 = pre ++ [Event.cleanupMarker]) := by
  cases h : env.hasStoredHash
  · rw [run_no_hash env h]
    exact ⟨⟨_, rfl⟩,
      ⟨[Event.createMarker, Event.installSigint, Event.loadSettings, Event.deferToSetup], rfl⟩⟩
  · rcases hp : pwLoop env with ⟨evs, ex⟩
    cases ex
    · rw [run_returned env h evs hp]
      exact ⟨⟨_, rfl⟩, ⟨[Event.createMarker, Event.installSigint, Event.loadSettings] ++ evs,
        by simp⟩⟩
    · rw [run_sysExit1 env h evs hp]
      exact ⟨⟨_, rfl⟩, ⟨[Event.createMarker, Event.installSigint, Event.loadSettings] ++ evs,
        by simp⟩⟩
    · rw [run_raised env h evs hp]
      exact ⟨⟨_, rfl⟩, ⟨([Event.createMarker, Event.installSigint, Event.loadSettings] ++ evs) ++
        [Event.logError], by simp⟩⟩

/-- Claim C6: for a blob of length at least 32, the parse at lines 88-92
yields ciphertext = all bytes but the last 32, tag = the 16 bytes at
positions [-32, -16), nonce = the last 16 bytes. -/
theorem C6_blob_layout (data : List Nat) (h : 32 ≤ data.length) :
    parseBlob data =
      (data.take (data.length - 32),
       (data.drop (data.length - 32)).take 16,
       data.drop (data.length - 16)) ∧
    (parseBlob data).2.1.length = 16 ∧ (parseBlob data).2.2.length = 16 := by
  have h32 : pyIdx data.length (-32) = data.length - 32 := by
    rw [pyIdx]
    simp only [if_pos (by norm_num : (-32 : Int) < 0)]
    omega
  have h16 : pyIdx data.length (-16) = data.length - 16 := by
    rw [pyIdx]
    simp only [if_pos (by norm_num : (-16 : Int) < 0)]
    omega
  have htag : pySlice data (-32) (-16) = (data.drop (data.length - 32)).take 16 := by
    rw [pySlice, h32, h16, List.drop_take]
    congr 1
    omega
  refine ⟨?_, ?_, ?_⟩
  · rw [parseBlob, pySliceTo, pySliceFrom, h32, h16, htag]
  · rw [parseBlob]
    simp only [htag]
    simp only [List.length_take, List.length_drop]
    omega
  · rw [parseBlob, pySliceFrom, h16]
    simp only [List.length_drop]
    omega

/-- Claim C6, witness at a concrete 36-byte blob. -/
theorem C6_blob_layout_witness :
    parseBlob (List.range 36) =
      ((List.range 36).take ((List.range 36).length - 32),
       ((List.range 36).drop ((List.range 36).length - 32)).take 16,
       (List.range 36).drop ((List.range 36).length - 16)) ∧
    (parseBlob (List.range 36)).2.1.length = 16 ∧
    (parseBlob (List.range 36)).2.2.length = 16 :=
  C6_blob_layout (List.range 36) (by decide)

/-- Claim C7: `decrypt_file` never consults its `iv` argument — two calls
differing only in `iv` agree for every AES-GCM primitive, file content,
key, tag, and nonce. -/
theorem C7_iv_unused (gcm : List Nat → List Nat → List Nat → List Nat → Option (List Nat))
    (fileContent aes_key iv iv' tag nonce : List Nat) :
    decrypt_file gcm fileContent aes_key iv tag nonce =
      decrypt_file gcm fileContent aes_key iv' tag nonce := rfl

/-- Claim C9: with no stored password hash, the run issues no password
prompt, attempts no unwrap or decryption, defers to the setup flow, and
returns normally (exit status 0; no attempt consumed, no wipe, no
lockout). -/
theorem C9_no_hash_defers (env : Env) (h : env.hasStoredHash = false) :
    (run env).1 = [Event.createMarker, Event.installSigint, Event.loadSettings,
      Event.deferToSetup, Event.cleanupMarker] ∧
    (run env).2 = Outcome.normal ∧
    countPrompts (run env).1 = 0 ∧
    Event.unwrapDekIv ∉ (run env).1 ∧
    (∀ p, Event.writePlaintext p ∉ (run env).1) ∧
    Event.wipeFiles ∉ (run env).1 ∧
    Event.deferToSetup ∈ (run env).1 := by
  have htr : run env = ([Event.createMarker, Event.installSigint, Event.loadSettings,
      Event.deferToSetup, Event.cleanupMarker], Outcome.normal) := by
    rw [run, h]
    simp
  refine ⟨by rw [htr], by rw [htr], by rw [htr]; rfl, by rw [htr]; decide, ?_, by rw [htr]; decide,
    by rw [htr]; decide⟩
  intro p
  rw [htr]
  simp

/-- Claim C9, witness: concrete environment with no stored hash. -/
theorem C9_no_hash_defers_witness :
    (run ⟨false, [], false, true, [], true, []⟩).1 =
      [Event.createMarker, Event.installSigint, Event.loadSettings,
       Event.deferToSetup, Event.cleanupMarker] ∧
    (run ⟨false, [], false, true, [], true, []⟩).2 = Outcome.normal ∧
    countPrompts (run ⟨false, [], false, true, [], true, []⟩).1 = 0 ∧
    Event.unwrapDekIv ∉ (run ⟨false, [], false, true, [], true, []⟩).1 ∧
    (∀ p, Event.writePlaintext p ∉ (run ⟨false, [], false, true, [], true, []⟩).1) ∧
    Event.wipeFiles ∉ (run ⟨false, [], false, true, [], true, []⟩).1 ∧
    Event.deferToSetup ∈ (run ⟨false, [], false, true, [], true, []⟩).1 :=
  C9_no_hash_defers ⟨false, [], false, true, [], true, []⟩ rfl

/-- Claim C10, counterexample to the claim as stated: the 20-byte blob
`List.range 20` is shorter than 32 bytes and does yield an empty
ciphertext and a tag shorter than 16 bytes, but its nonce slice
`data[-16:]` has exactly 16 bytes, not fewer — the claim's "tag/nonce
values shorter than 16 bytes" fails for blobs of length 16..31. -/
theorem C10_counterexample :
    (List.range 20).length < 32 ∧
    (parseBlob (List.range 20)).1 = [] ∧
    (parseBlob (List.range 20)).2.1.length < 16 ∧
    ¬ (parseBlob (List.range 20)).2.2.length < 16 := by decide

/-- Claim C10 as amended: the parse performs no length validation — for
every blob the three slices are defined; a blob shorter than 32 bytes
silently yields an empty ciphertext, a tag of `len - 16` bytes (always
shorter than 16), and a nonce of `min len 16` bytes (exactly 16 when
`16 ≤ len < 32`, shorter only when `len < 16`), instead of being
rejected as violating the ≥ 32-byte layout invariant. -/
theorem C10_no_length_validation (data : List Nat) (h : data.length < 32) :
    parseBlob data = ([], data.take (data.length - 16), data.drop (data.length - 16)) ∧
    (parseBlob data).2.1.length = data.length - 16 ∧
    (parseBlob data).2.1.length < 16 ∧
    (parseBlob data).2.2.length = min data.length 16 := by
  have h32 : pyIdx data.length (-32) = 0 := by
    rw [pyIdx]
    simp only [if_pos (by norm_num : (-32 : Int) < 0)]
    omega
  have h16 : pyIdx data.length (-16) = data.length - 16 := by
    rw [pyIdx]
    simp only [if_pos (by norm_num : (-16 : Int) < 0)]
    omega
  have hct : pySliceTo data (-32) = [] := by
    rw [pySliceTo, h32, List.take_zero]
  have htag : pySlice data (-32) (-16) = data.take (data.length - 16) := by
    rw [pySlice, h32, h16, List.drop_zero]
  refine ⟨?_, ?_, ?_, ?_⟩
  · rw [parseBlob, hct, htag, pySliceFrom, h16]
  · rw [parseBlob]
    simp only [htag, List.length_take]
    omega
  · rw [parseBlob]
    simp only [htag, List.length_take]
    omega
  · rw [parseBlob, pySliceFrom, h16]
    simp only [List.length_drop]
    omega

/-- Claim C10 (amended), witness at a concrete 20-byte blob. -/
theorem C10_no_length_validation_witness :
    parseBlob (List.range 20) =
      ([], (List.range 20).take ((List.range 20).length - 16),
       (List.range 20).drop ((List.range 20).length - 16)) ∧
    (parseBlob (List.range 20)).2.1.length = (List.range 20).length - 16 ∧
    (parseBlob (List.range 20)).2.1.length < 16 ∧
    (parseBlob (List.range 20)).2.2.length = min (List.range 20).length 16 :=
  C10_no_length_validation (List.range 20) (by decide)

/-- Claim C3: in the batch loop, a file whose tag or nonce sidecar is
absent, or whose decryption fails, is reported as skipped; no plaintext
is written for it, none of its artifacts is deleted, and the loop
continues with the remaining entries. -/
theorem C3_skip_on_failure (e : FileEntry) (rest : List FileEntry)
    (hdir : e.isDir = false) (henc : endsWithEnc e.name = true)
    (hfail : e.tagExists = false ∨ e.nonceExists = false ∨ e.decryptOk = false) :
    (∃ r, processFile e = [Event.skipFile e.name r]) ∧
    (∀ p, Event.writePlaintext p ∉ processFile e) ∧
    (∀ p, Event.secureDeleteFile p ∉ processFile e) ∧
    fileLoop (e :: rest) = processFile e ++ fileLoop rest := by
  have hskip : ∃ r, processFile e = [Event.skipFile e.name r] := by
    rw [processFile, hdir, henc]
    simp only [Bool.not_true, Bool.false_or, if_false]
    rcases hfail with hf | hf | hf
    · rw [hf]
      exact ⟨SkipReason.missingSidecar, by simp⟩
    · rw [hf]
      exact ⟨SkipReason.missingSidecar, by simp⟩
    · cases ht : e.tagExists <;> cases hn : e.nonceExists <;>
        simp [hf, SkipReason.missingSidecar, SkipReason.decryptFailed]
  rcases hskip with ⟨r, hr⟩
  refine ⟨⟨r, hr⟩, ?_, ?_, rfl⟩
  · intro p hmem
    rw [hr] at hmem
    simp at hmem
  · intro p hmem
    rw [hr] at hmem
    simp at hmem

/-- Claim C3, witness: a regular `.enc` file with a missing tag sidecar. -/
theorem C3_skip_on_failure_witness :
    (∃ r, processFile ⟨['a', '.', 'e', 'n', 'c'], false, false, true, true, none⟩ =
      [Event.skipFile ['a', '.', 'e', 'n', 'c'] r]) ∧
    (∀ p, Event.writePlaintext p ∉
      processFile ⟨['a', '.', 'e', 'n', 'c'], false, false, true, true, none⟩) ∧
    (∀ p, Event.secureDeleteFile p ∉
      processFile ⟨['a', '.', 'e', 'n', 'c'], false, false, true, true, none⟩) ∧
    fileLoop (⟨['a', '.', 'e', 'n', 'c'], false, false, true, true, none⟩ :: []) =
      processFile ⟨['a', '.', 'e', 'n', 'c'], false, false, true, true, none⟩ ++ fileLoop [] :=
  C3_skip_on_failure ⟨['a', '.', 'e', 'n', 'c'], false, false, true, true, none⟩ []
    rfl (by decide) (Or.inl rfl)

lemma mem_eraseEvents_shape (e : FileEntry) :
    ∀ ev ∈ eraseEvents e,
      (∃ p, ev = Event.secureDeleteFile p ∧ p ∈ deleteTargets e) ∨
        ev = Event.eraseError e.name := by
  intro ev hev
  cases hf : e.eraseFail <;> rw [eraseEvents, hf] at hev
  · rcases List.mem_map.mp hev with ⟨q, hq, rfl⟩
    exact Or.inl ⟨q, rfl, hq⟩
  · rcases List.mem_append.mp hev with h1 | h1
    · rcases List.mem_map.mp ((List.take_sublist _ _).mem h1) with ⟨q, hq, rfl⟩
      exact Or.inl ⟨q, rfl, hq⟩
    · exact Or.inr (List.mem_singleton.mp h1)

lemma base_not_target (e : FileEntry) (henc : endsWithEnc e.name = true) :
    stripEnc e.name ∉ deleteTargets e := by
  have hlen : 4 ≤ e.name.length := by
    rw [endsWithEnc] at henc
    exact of_decide_eq_true ((Bool.and_eq_true _ _).mp henc).1
  have hbase : (stripEnc e.name).length = e.name.length - 4 := by
    rw [stripEnc, List.length_take]
    omega
  intro hmem
  rw [deleteTargets] at hmem
  rcases List.mem_cons.mp hmem with h1 | hmem
  · have := congrArg List.length h1
    rw [hbase] at this
    omega
  rcases List.mem_cons.mp hmem with h1 | hmem
  · have := congrArg List.length h1
    rw [List.length_append] at this
    simp [tagSuffix] at this
  rcases List.mem_cons.mp hmem with h1 | hmem
  · have := congrArg List.length h1
    rw [List.length_append] at this
    simp [nonceSuffix] at this
  · simp at hmem

/-- Claim C5: for a file that decrypts successfully, the plaintext write
to the base path is the first emitted effect, strictly before any of the
three secure-erase calls; the erase phase never writes and never deletes
the base path; if a `secure_delete` raises, the error is logged
(`eraseError`) and the loop continues with the remaining entries, the
plaintext write having already happened. -/
theorem C5_write_before_erase (e : FileEntry) (rest : List FileEntry)
    (hdir : e.isDir = false) (henc : endsWithEnc e.name = true)
    (htag : e.tagExists = true) (hnonce : e.nonceExists = true)
    (hdec : e.decryptOk = true) :
    processFile e = Event.writePlaintext (stripEnc e.name) :: eraseEvents e ∧
    (∀ p, Event.writePlaintext p ∉ eraseEvents e) ∧
    Event.secureDeleteFile (stripEnc e.name) ∉ eraseEvents e ∧
    (∀ k, e.eraseFail = some k → Event.eraseError e.name ∈ eraseEvents e) ∧
    fileLoop (e :: rest) = processFile e ++ fileLoop rest := by
  refine ⟨?_, ?_, ?_, ?_, rfl⟩
  · rw [processFile, hdir, henc, htag, hnonce, hdec]
    simp
  · intro p hmem
    rcases mem_eraseEvents_shape e _ hmem with ⟨q, hq, _⟩ | hq <;> exact absurd hq (by simp)
  · intro hmem
    rcases mem_eraseEvents_shape e _ hmem with ⟨q, hq, hmemq⟩ | hq
    · rw [Event.secureDeleteFile.injEq] at hq
      rw [← hq] at hmemq
      exact base_not_target e henc hmemq
    · exact absurd hq (by simp)
  · intro k hk
    rw [eraseEvents, hk]
    exact List.mem_append_right _ (List.mem_singleton.mpr rfl)

/-- Claim C5, witness: a decryptable `.enc` file whose second
`secure_delete` call raises. -/
theorem C5_write_before_erase_witness :
    processFile ⟨['b', '.', 'e', 'n', 'c'], false, true, true, true, some 1⟩ =
      Event.writePlaintext (stripEnc ['b', '.', 'e', 'n', 'c']) ::
        eraseEvents ⟨['b', '.', 'e', 'n', 'c'], false, true, true, true, some 1⟩ ∧
    (∀ p, Event.writePlaintext p ∉
      eraseEvents ⟨['b', '.', 'e', 'n', 'c'], false, true, true, true, some 1⟩) ∧
    Event.secureDeleteFile (stripEnc ['b', '.', 'e', 'n', 'c']) ∉
      eraseEvents ⟨['b', '.', 'e', 'n', 'c'], false, true, true, true, some 1⟩ ∧
    (∀ k, (some (1 : Fin 3) : Option (Fin 3)) = some k →
      Event.eraseError ['b', '.', 'e', 'n', 'c'] ∈
        eraseEvents ⟨['b', '.', 'e', 'n', 'c'], false, true, true, true, some 1⟩) ∧
    fileLoop (⟨['b', '.', 'e', 'n', 'c'], false, true, true, true, some 1⟩ :: []) =
      processFile ⟨['b', '.', 'e', 'n', 'c'], false, true, true, true, some 1⟩ ++ fileLoop [] :=
  C5_write_before_erase ⟨['b', '.', 'e', 'n', 'c'], false, true, true, true, some 1⟩ []
    rfl (by decide) rfl rfl rfl

lemma attemptStep_raised (env : Env) (a : Nat) (next : List Event × LoopExit)
    (hs : env.submissions.getD a false = true) (hk : env.keysFileExists = false) :
    attemptStep env a next = ([Event.promptPassword, Event.exceptionRaised], LoopExit.raised) := by
  rw [attemptStep, hs, hk]
  simp

lemma attemptStep_noUnwrap (env : Env) (a : Nat) (next : List Event × LoopExit)
    (hs : env.submissions.getD a false = true) (hk : env.keysFileExists = true)
    (hu : env.unwrapOk = false) :
    attemptStep env a next = ([Event.promptPassword, Event.readKeysBlob, Event.promptMainKey,
      Event.unwrapDekIv], LoopExit.returned) := by
  rw [attemptStep, hs, hk, hu]
  simp

lemma attemptStep_full (env : Env) (a : Nat) (next : List Event × LoopExit)
    (hs : env.submissions.getD a false = true) (hk : env.keysFileExists = true)
    (hu : env.unwrapOk = true) :
    attemptStep env a next = (Event.promptPassword :: Event.readKeysBlob ::
      Event.promptMainKey :: Event.unwrapDekIv :: (fileLoop env.files ++ [Event.messageWindow]),
      LoopExit.returned) := by
  rw [attemptStep, hs, hk, hu]
  simp

lemma attemptStep_wrong_cont (env : Env) (a : Nat) (next : List Event × LoopExit)
    (hs : env.submissions.getD a false = false) (hlt : a + 1 < 3) :
    attemptStep env a next = (Event.promptPassword ::
      Event.logInvalidPassword (3 - (a + 1)) :: next.1, next.2) := by
  rw [attemptStep, hs]
  simp [hlt]

lemma attemptStep_wrong_last (env : Env) (a : Nat) (next : List Event × LoopExit)
    (hs : env.submissions.getD a false = false) (hlt : ¬ a + 1 < 3) :
    attemptStep env a next = (Event.promptPassword ::
      ((if env.wipeSetting then [Event.wipeFiles] else []) ++ [Event.exitProcess 1]),
      LoopExit.sysExit1) := by
  rw [attemptStep, hs]
  simp [hlt]

lemma countPrompts_append (l₁ l₂ : List Event) :
    countPrompts (l₁ ++ l₂) = countPrompts l₁ + countPrompts l₂ := by
  simp [countPrompts]

lemma countPrompts_attemptStep (env : Env) (a : Nat) (next : List Event × LoopExit) :
    countPrompts (attemptStep env a next).1 ≤ 1 + countPrompts next.1 := by
  cases hs : env.submissions.getD a false
  · by_cases hlt : a + 1 < 3
    · rw [attemptStep_wrong_cont env a next hs hlt]
      simp [countPrompts, isPrompt]
      omega
    · rw [attemptStep_wrong_last env a next hs hlt]
      cases hw : env.wipeSetting <;> simp [countPrompts, isPrompt]
  · cases hk : env.keysFileExists
    · rw [attemptStep_raised env a next hs hk]
      simp [countPrompts, isPrompt]
    · cases hu : env.unwrapOk
      · rw [attemptStep_noUnwrap env a next hs hk hu]
        simp [countPrompts, isPrompt]
      · rw [attemptStep_full env a next hs hk hu]
        have hf : (fileLoop env.files).countP isPrompt = 0 := countPrompts_fileLoop env.files
        simp [countPrompts, isPrompt, List.countP_cons, List.countP_append, hf]

lemma countPrompts_pwLoop (env : Env) : countPrompts (pwLoop env).1 ≤ 3 := by
  have h2 := countPrompts_attemptStep env 2 ([Event.exitProcess 1], LoopExit.sysExit1)
  have h1 := countPrompts_attemptStep env 1
    (attemptStep env 2 ([Event.exitProcess 1], LoopExit.sysExit1))
  have h0 := countPrompts_attemptStep env 0
    (attemptStep env 1 (attemptStep env 2 ([Event.exitProcess 1], LoopExit.sysExit1)))
  have hbase : countPrompts ([Event.exitProcess 1], LoopExit.sysExit1).1 = 0 := rfl
  rw [pwLoop]
  omega

lemma pwLoop_allWrong (env : Env) (h0 : env.submissions.getD 0 false = false)
    (h1 : env.submissions.getD 1 false = false) (h2 : env.submissions.getD 2 false = false) :
    pwLoop env = ([Event.promptPassword, Event.logInvalidPassword 2,
      Event.promptPassword, Event.logInvalidPassword 1, Event.promptPassword] ++
      ((if env.wipeSetting then [Event.wipeFiles] else []) ++ [Event.exitProcess 1]),
      LoopExit.sysExit1) := by
  rw [pwLoop, attemptStep_wrong_last env 2 _ h2 (by omega),
    attemptStep_wrong_cont env 1 _ h1 (by omega),
    attemptStep_wrong_cont env 0 _ h0 (by omega)]
  rfl

/-- Claim C1: every invocation prompts for the password at most 3 times;
when the first three submissions are all wrong, exactly 3 prompts are
issued (none after the third failure), `wipe_encrypted_files` runs iff
the `wipe_files_after_max_attempts` setting is enabled, and the process
terminates with exit status 1. -/
theorem C1_attempt_bound (env : Env) :
    countPrompts (run env).1 ≤ 3 ∧
    (env.hasStoredHash = true ∧ env.submissions.getD 0 false = false ∧
      env.submissions.getD 1 false = false ∧ env.submissions.getD 2 false = false →
      countPrompts (run env).1 = 3 ∧ (run env).2 = Outcome.exit1 ∧
      (Event.wipeFiles ∈ (run env).1 ↔ env.wipeSetting = true)) := by
  constructor
  · cases hh : env.hasStoredHash
    · rw [run_no_hash env hh]
      decide
    · rcases hp : pwLoop env with ⟨evs, ex⟩
      have hc : countPrompts evs ≤ 3 := by
        have h := countPrompts_pwLoop env
        rw [hp] at h
        exact h
      have heq : ∀ tail : List Event,
          countPrompts ([Event.createMarker, Event.installSigint, Event.loadSettings] ++ evs ++
            tail) = countPrompts evs + countPrompts tail := by
        intro tail
        rw [countPrompts_append, countPrompts_append]
        have hz : countPrompts [Event.createMarker, Event.installSigint, Event.loadSettings] = 0 :=
          rfl
        omega
      cases ex
      · rw [run_returned env hh evs hp]
        have h1 := heq [Event.cleanupMarker]
        have h2 : countPrompts [Event.cleanupMarker] = 0 := rfl
        simp only [h1]
        omega
      · rw [run_sysExit1 env hh evs hp]
        have h1 := heq [Event.cleanupMarker]
        have h2 : countPrompts [Event.cleanupMarker] = 0 := rfl
        simp only [h1]
        omega
      · rw [run_raised env hh evs hp]
        have h1 := heq [Event.logError, Event.cleanupMarker]
        have h2 : countPrompts [Event.logError, Event.cleanupMarker] = 0 := rfl
        simp only [h1]
        omega
  · rintro ⟨hh, h0, h1, h2⟩
    have hp := pwLoop_allWrong env h0 h1 h2
    rw [run_sysExit1 env hh _ hp]
    refine ⟨?_, rfl, ?_⟩
    · cases hw : env.wipeSetting <;> decide
    · cases hw : env.wipeSetting <;> decide

/-- Claim C1, witness: three wrong submissions with the wipe setting
enabled. -/
theorem C1_attempt_bound_witness :
    countPrompts (run ⟨true, [false, false, false], true, true, [], true, []⟩).1 = 3 ∧
    (run ⟨true, [false, false, false], true, true, [], true, []⟩).2 = Outcome.exit1 ∧
    (Event.wipeFiles ∈ (run ⟨true, [false, false, false], true, true, [], true, []⟩).1 ↔
      (⟨true, [false, false, false], true, true, [], true, []⟩ : Env).wipeSetting = true) :=
  (C1_attempt_bound ⟨true, [false, false, false], true, true, [], true, []⟩).2
    (by refine ⟨rfl, rfl, rfl, rfl⟩)

lemma exceptionRaised_attemptStep (env : Env) (a : Nat) (next : List Event × LoopExit)
    (hnext : Event.exceptionRaised ∈ next.1 → next.2 = LoopExit.raised) :
    Event.exceptionRaised ∈ (attemptStep env a next).1 →
      (attemptStep env a next).2 = LoopExit.raised := by
  intro h
  cases hs : env.submissions.getD a false
  · by_cases hlt : a + 1 < 3
    · rw [attemptStep_wrong_cont env a next hs hlt] at h ⊢
      simp only [List.mem_cons] at h
      rcases h with h | h | h
      · exact Event.noConfusion h
      · exact Event.noConfusion h
      · exact hnext h
    · rw [attemptStep_wrong_last env a next hs hlt] at h
      exfalso
      cases hw : env.wipeSetting <;> rw [hw] at h <;> simp at h
  · cases hk : env.keysFileExists
    · rw [attemptStep_raised env a next hs hk]
    · cases hu : env.unwrapOk
      · rw [attemptStep_noUnwrap env a next hs hk hu] at h
        simp at h
      · rw [attemptStep_full env a next hs hk hu] at h
        simp at h
        exact absurd h (exceptionRaised_not_mem_fileLoop env.files)

lemma exceptionRaised_mem_pwLoop (env : Env)
    (h : Event.exceptionRaised ∈ (pwLoop env).1) : (pwLoop env).2 = LoopExit.raised := by
  rw [pwLoop] at h ⊢
  exact exceptionRaised_attemptStep env 0 _
    (exceptionRaised_attemptStep env 1 _
      (exceptionRaised_attemptStep env 2 _ (by intro hb; simp at hb))) h

/-- Claim C4, counterexample to the claim as stated: with a stored hash,
a correct first password and a missing `encrypted_keys_ivs.bin`, the
`open` at line 88 raises `FileNotFoundError`; the top-level
`except Exception` handler catches and logs it and the `finally` cleanup
runs, but the function then returns normally — the exception does NOT
propagate out of `decrypt_files_in_directory` as the claim requires
(lines 186-187 print the error and fall through without re-raising). -/
theorem C4_counterexample :
    Event.exceptionRaised ∈ (run ⟨true, [true], false, false, [], true, []⟩).1 ∧
    Event.logError ∈ (run ⟨true, [true], false, false, [], true, []⟩).1 ∧
    (run ⟨true, [true], false, false, [], true, []⟩).2 = Outcome.normal ∧
    (run ⟨true, [true], false, false, [], true, []⟩).2 ≠ Outcome.propagated := by decide

/-- Claim C4 as amended: every unclassified exception reaching the top
level of `decrypt_files_in_directory` is caught there, logged, and
triggers the same guaranteed cleanup as any other exit path — but it is
then suppressed, not propagated: the function returns normally.  (The
error is logged, so it is not silently swallowed, but it does not
propagate as a general failure.) -/
theorem C4_exception_swallowed (env : Env)
    (h : Event.exceptionRaised ∈ (run env).1) :
    Event.logError ∈ (run env).1 ∧
    (∃ pre, (run env).1 = pre ++ [Event.cleanupMarker]) ∧
    (run env).2 = Outcome.normal := by
  cases hh : env.hasStoredHash
  · rw [run_no_hash env hh] at h
    exact absurd h (by decide)
  · rcases hp : pwLoop env with ⟨evs, ex⟩
    cases ex
    · rw [run_returned env hh evs hp] at h
      simp at h
      have hx := exceptionRaised_mem_pwLoop env (by rw [hp]; exact h)
      rw [hp] at hx
      exact absurd hx (by simp)
    · rw [run_sysExit1 env hh evs hp] at h
      simp at h
      have hx := exceptionRaised_mem_pwLoop env (by rw [hp]; exact h)
      rw [hp] at hx
      exact absurd hx (by simp)
    · rw [run_raised env hh evs hp]
      refine ⟨by simp, ?_, rfl⟩
      exact ⟨([Event.createMarker, Event.installSigint, Event.loadSettings] ++ evs) ++
        [Event.logError], by simp⟩

/-- Claim C4 (amended), witness: the concrete run of the counterexample
environment. -/
theorem C4_exception_swallowed_witness :
    Event.logError ∈ (run ⟨true, [true], false, false, [], true, []⟩).1 ∧
    (∃ pre, (run ⟨true, [true], false, false, [], true, []⟩).1 =
      pre ++ [Event.cleanupMarker]) ∧
    (run ⟨true, [true], false, false, [], true, []⟩).2 = Outcome.normal :=
  C4_exception_swallowed ⟨true, [true], false, false, [], true, []⟩ (by decide)

lemma unwrap_attemptStep (env : Env) (hu : env.unwrapOk = false) (a : Nat)
    (next : List Event × LoopExit)
    (hnext : Event.unwrapDekIv ∈ next.1 →
      (∀ p, Event.writePlaintext p ∉ next.1) ∧ (∀ p, Event.secureDeleteFile p ∉ next.1) ∧
        Event.wipeFiles ∉ next.1 ∧ next.2 = LoopExit.returned) :
    Event.unwrapDekIv ∈ (attemptStep env a next).1 →
      (∀ p, Event.writePlaintext p ∉ (attemptStep env a next).1) ∧
      (∀ p, Event.secureDeleteFile p ∉ (attemptStep env a next).1) ∧
      Event.wipeFiles ∉ (attemptStep env a next).1 ∧
      (attemptStep env a next).2 = LoopExit.returned := by
  intro h
  cases hs : env.submissions.getD a false
  · by_cases hlt : a + 1 < 3
    · rw [attemptStep_wrong_cont env a next hs hlt] at h ⊢
      simp only [List.mem_cons] at h
      rcases h with h | h | h
      · exact Event.noConfusion h
      · exact Event.noConfusion h
      · rcases hnext h with ⟨hw, hd, hwf, hret⟩
        refine ⟨?_, ?_, ?_, hret⟩
        · intro q
          simp only [List.mem_cons]
          rintro (h1 | h1 | h1)
          · exact Event.noConfusion h1
          · exact Event.noConfusion h1
          · exact hw q h1
        · intro q
          simp only [List.mem_cons]
          rintro (h1 | h1 | h1)
          · exact Event.noConfusion h1
          · exact Event.noConfusion h1
          · exact hd q h1
        · simp only [List.mem_cons]
          rintro (h1 | h1 | h1)
          · exact Event.noConfusion h1
          · exact Event.noConfusion h1
          · exact hwf h1
    · rw [attemptStep_wrong_last env a next hs hlt] at h
      exfalso
      cases hwp : env.wipeSetting <;> rw [hwp] at h <;> simp at h
  · cases hk : env.keysFileExists
    · rw [attemptStep_raised env a next hs hk] at h
      simp at h
    · rw [attemptStep_noUnwrap env a next hs hk hu] at h ⊢
      refine ⟨?_, ?_, ?_, rfl⟩ <;> simp

lemma unwrap_pwLoop (env : Env) (hu : env.unwrapOk = false)
    (h : Event.unwrapDekIv ∈ (pwLoop env).1) :
    (∀ p, Event.writePlaintext p ∉ (pwLoop env).1) ∧
    (∀ p, Event.secureDeleteFile p ∉ (pwLoop env).1) ∧
    Event.wipeFiles ∉ (pwLoop env).1 ∧ (pwLoop env).2 = LoopExit.returned := by
  rw [pwLoop] at h ⊢
  exact unwrap_attemptStep env hu 0 _
    (unwrap_attemptStep env hu 1 _
      (unwrap_attemptStep env hu 2 _ (by intro hb; simp at hb))) h

lemma not_mem_append3 (x : Event) (l1 l2 l3 : List Event)
    (h1 : x ∉ l1) (h2 : x ∉ l2) (h3 : x ∉ l3) : x ∉ l1 ++ l2 ++ l3 := by
  intro h
  rcases List.mem_append.mp h with ha | ha
  · rcases List.mem_append.mp ha with hb | hb
    · exact h1 hb
    · exact h2 hb
  · exact h3 ha

/-- Claim C8: when the DEK/IV unwrap step is reached and
`decrypt_aes_key_and_iv` returns no key, the function returns at once:
the trace holds no plaintext write, no secure deletion and no wipe, and
the outcome is a normal return. -/
theorem C8_unwrap_failure_aborts (env : Env) (hu : env.unwrapOk = false)
    (h : Event.unwrapDekIv ∈ (run env).1) :
    (∀ p, Event.writePlaintext p ∉ (run env).1) ∧
    (∀ p, Event.secureDeleteFile p ∉ (run env).1) ∧
    Event.wipeFiles ∉ (run env).1 ∧
    (run env).2 = Outcome.normal := by
  cases hh : env.hasStoredHash
  · rw [run_no_hash env hh] at h
    exact absurd h (by decide)
  · rcases hp : pwLoop env with ⟨evs, ex⟩
    have hmem : Event.unwrapDekIv ∈ evs := by
      cases ex
      · rw [run_returned env hh evs hp] at h
        simpa using h
      · rw [run_sysExit1 env hh evs hp] at h
        simpa using h
      · rw [run_raised env hh evs hp] at h
        simpa using h
    have hc := unwrap_pwLoop env hu (by rw [hp]; exact hmem)
    rw [hp] at hc
    rcases hc with ⟨hw, hd, hwf, hret⟩
    cases ex
    · rw [run_returned env hh evs hp]
      refine ⟨?_, ?_, ?_, rfl⟩
      · intro q
        exact not_mem_append3 _ _ _ _ (by simp) (hw q) (by simp)
      · intro q
        exact not_mem_append3 _ _ _ _ (by simp) (hd q) (by simp)
      · exact not_mem_append3 _ _ _ _ (by simp) hwf (by simp)
    · exact absurd hret (by simp)
    · exact absurd hret (by simp)

/-- Claim C8, witness: correct first password, keys blob present,
unwrap returning `None`. -/
theorem C8_unwrap_failure_aborts_witness :
    (∀ p, Event.writePlaintext p ∉ (run ⟨true, [true], true, true, [], false, []⟩).1) ∧
    (∀ p, Event.secureDeleteFile p ∉ (run ⟨true, [true], true, true, [], false, []⟩).1) ∧
    Event.wipeFiles ∉ (run ⟨true, [true], true, true, [], false, []⟩).1 ∧
    (run ⟨true, [true], true, true, [], false, []⟩).2 = Outcome.normal :=
  C8_unwrap_failure_aborts ⟨true, [true], true, true, [], false, []⟩ rfl (by decide)
